import Mathlib

/-
  Verification of the object-file pool core: a shallow embedding of the
  reference-counting primitive (pkg/rc/reference.go), the object-file entry
  (pkg/objectfile/object_file.go) and the pool (pkg/objectfile/pool.go),
  together with proofs of the specified invariants.
-/

set_option maxHeartbeats 1000000

namespace RcModel

/-- An operation performed on a resource block: cloning from handle `i`
(Reference.Clone) or releasing handle `i` (Reference.Release). Handles are
identified by their creation index. -/
inductive Op where
  | clone (i : Nat)
  | release (i : Nat)
  deriving DecidableEq, Repr

/-- Result of an operation: success, the ErrReleased error, or an error
returned by the closer. -/
inductive RRes where
  | ok
  | errReleased
  | errCloser
  deriving DecidableEq, Repr

/-- State of one resource block (pkg/rc/reference.go) together with all the
Reference handles that were ever produced from it.  `closerOk = none` models a
nil closer; `some b` a closer whose invocations return success iff `b`.
`handles` holds each handle's `released` flag.  `closerCalls`, `succClones`
and `succReleases` are instrumentation counters: number of closer invocations,
of successful Clone calls and of successful Release calls. -/
structure RcState where
  closerOk : Option Bool
  refCount : Int
  closed : Bool
  closerCalls : Nat
  handles : List Bool
  succClones : Nat
  succReleases : Nat
  deriving DecidableEq, Repr

/-- The state immediately after New(val, closer) with a succeeding closer:
refCount 1, one live handle, nothing closed. -/
def initState : RcState :=
  { closerOk := some true, refCount := 1, closed := false, closerCalls := 0,
    handles := [false], succClones := 0, succReleases := 0 }

/-- Reference.Clone on handle `i`: fails with ErrReleased when the handle's
released flag is set, otherwise increments refCount and appends a fresh
handle. -/
def cloneH (s : RcState) (i : Nat) : RcState × RRes :=
  if s.handles[i]? = some false then
    ({ s with refCount := s.refCount + 1,
              handles := s.handles ++ [false],
              succClones := s.succClones + 1 }, RRes.ok)
  else (s, RRes.errReleased)

/-- resource.Close: returns nil for a nil closer; otherwise invokes the closer
(counted in closerCalls) and sets `closed` only when it succeeds. -/
def resourceClose (s : RcState) : RcState × RRes :=
  match s.closerOk with
  | none => (s, RRes.ok)
  | some ok =>
      if ok then
        ({ s with closerCalls := s.closerCalls + 1, closed := true }, RRes.ok)
      else ({ s with closerCalls := s.closerCalls + 1 }, RRes.errCloser)

/-- Bump the successful-release ghost counter when a release returned nil. -/
def tallyRelease : RcState × RRes → RcState × RRes
  | (s, RRes.ok) => ({ s with succReleases := s.succReleases + 1 }, RRes.ok)
  | p => p

/-- Reference.Release on handle `i`: the compare-and-swap on the handle's
released flag fails with ErrReleased on a repeat call; the first call flips
the flag, decrements refCount, and when the count reaches zero synchronously
runs resource.Close, propagating its error. -/
def releaseH (s : RcState) (i : Nat) : RcState × RRes :=
  if s.handles[i]? = some false then
    if s.refCount - 1 = 0 then
      tallyRelease (resourceClose
        { s with handles := s.handles.set i true, refCount := s.refCount - 1 })
    else
      ({ s with handles := s.handles.set i true, refCount := s.refCount - 1,
                succReleases := s.succReleases + 1 }, RRes.ok)
  else (s, RRes.errReleased)

/-- One step of the block's history. -/
def step (s : RcState) : Op → RcState × RRes
  | .clone i => cloneH s i
  | .release i => releaseH s i

/-- Run a sequence of operations from a state. -/
def run (s : RcState) : List Op → RcState
  | [] => s
  | op :: t => run (step s op).1 t

/-- Number of released handles. -/
def countTrue : List Bool → Nat
  | [] => 0
  | b :: t => (if b then 1 else 0) + countTrue t

/-- Whether an optional operation is a release. -/
def opIsRelease : Option Op → Bool
  | some (.release _) => true
  | _ => false

/-- The result returned by the k-th operation of trace `t` run from
initState. -/
def resAt (t : List Op) (k : Nat) : Option RRes :=
  match t[k]? with
  | some op => some (step (run initState (t.take k)) op).2
  | none => none

/-- Reachable-state invariant for a block created with a succeeding closer:
refCount counts the unreleased handles, the closer has run exactly when all
handles are released, `closed` tracks the same condition, and the ghost
counters count handles and released flags. -/
def Inv (s : RcState) : Prop :=
  s.closerOk = some true ∧
  1 ≤ s.handles.length ∧
  s.refCount = (s.handles.length : Int) - (countTrue s.handles : Int) ∧
  s.closerCalls = (if countTrue s.handles = s.handles.length then 1 else 0) ∧
  (s.closed = true ↔ countTrue s.handles = s.handles.length) ∧
  s.succClones = s.handles.length - 1 ∧
  s.succReleases = countTrue s.handles

theorem countTrue_le (l : List Bool) : countTrue l ≤ l.length := by
  induction l with
  | nil => simp [countTrue]
  | cons b t ih => cases b <;> simp [countTrue] <;> omega

theorem countTrue_append_false (l : List Bool) :
    countTrue (l ++ [false]) = countTrue l := by
  induction l with
  | nil => simp [countTrue]
  | cons b t ih => cases b <;> simp [countTrue, ih]

theorem countTrue_lt_of_get_false {l : List Bool} {i : Nat}
    (h : l[i]? = some false) : countTrue l < l.length := by
  induction l generalizing i with
  | nil => simp at h
  | cons b t ih =>
      cases i with
      | zero =>
          simp at h
          subst h
          have := countTrue_le t
          simp [countTrue]
          omega
      | succ j =>
          simp at h
          have := ih h
          cases b <;> simp [countTrue] <;> omega

theorem countTrue_set_true {l : List Bool} {i : Nat}
    (h : l[i]? = some false) :
    countTrue (l.set i true) = countTrue l + 1 := by
  induction l generalizing i with
  | nil => simp at h
  | cons b t ih =>
      cases i with
      | zero =>
          simp at h
          subst h
          simp [List.set, countTrue]
          omega
      | succ j =>
          simp at h
          simp [List.set, countTrue, ih h]
          omega

theorem get_set_true_self {l : List Bool} {i : Nat}
    (h : l[i]? = some false) :
    (l.set i true)[i]? = some true := by
  induction l generalizing i with
  | nil => simp at h
  | cons b t ih =>
      cases i with
      | zero => simp [List.set]
      | succ j =>
          simp at h
          simp [List.set, ih h]

theorem get_true_of_set {l : List Bool} {i j : Nat}
    (h : l[i]? = some true) :
    (l.set j true)[i]? = some true := by
  induction l generalizing i j with
  | nil => simp at h
  | cons b t ih =>
      cases j with
      | zero =>
          cases i with
          | zero => simp [List.set]
          | succ k => simpa [List.set] using h
      | succ j2 =>
          cases i with
          | zero => simpa [List.set] using h
          | succ k =>
              simp at h
              simp [List.set, ih h]

theorem get_true_append {l : List Bool} {i : Nat}
    (h : l[i]? = some true) :
    (l ++ [false])[i]? = some true := by
  induction l generalizing i with
  | nil => simp at h
  | cons b t ih =>
      cases i with
      | zero => simpa using h
      | succ k =>
          simp at h
          simpa using ih h

theorem all_true_of_count {l : List Bool}
    (h : countTrue l = l.length) {i : Nat} (hi : i < l.length) :
    l[i]? = some true := by
  induction l generalizing i with
  | nil => simp at hi
  | cons b t ih =>
      cases b with
      | false =>
          exfalso
          have := countTrue_le t
          simp [countTrue] at h
          omega
      | true =>
          cases i with
          | zero => simp
          | succ j =>
              simp [countTrue] at h
              simp at hi
              have h2 : countTrue t = t.length := by omega
              have h3 : j < t.length := by omega
              simpa using ih h2 h3

theorem cloneH_live (s : RcState) (i : Nat) (hg : s.handles[i]? = some false) :
    cloneH s i =
      ({ s with refCount := s.refCount + 1,
                handles := s.handles ++ [false],
                succClones := s.succClones + 1 }, RRes.ok) := by
  rw [cloneH, if_pos hg]

theorem cloneH_dead (s : RcState) (i : Nat)
    (hg : ¬ s.handles[i]? = some false) :
    cloneH s i = (s, RRes.errReleased) := by
  rw [cloneH, if_neg hg]

theorem resourceClose_ok (s : RcState) (h : s.closerOk = some true) :
    resourceClose s =
      ({ s with closerCalls := s.closerCalls + 1, closed := true }, RRes.ok) := by
  unfold resourceClose
  rw [h]
  rfl

theorem releaseH_zero (s : RcState) (i : Nat) (hg : s.handles[i]? = some false)
    (hz : s.refCount - 1 = 0) (hc : s.closerOk = some true) :
    releaseH s i =
      ({ s with handles := s.handles.set i true, refCount := s.refCount - 1,
                closerCalls := s.closerCalls + 1, closed := true,
                succReleases := s.succReleases + 1 }, RRes.ok) := by
  rw [releaseH, if_pos hg, if_pos hz, resourceClose_ok ({ s with handles := s.handles.set i true, refCount := s.refCount - 1 }) hc]
  rfl

theorem releaseH_pos (s : RcState) (i : Nat) (hg : s.handles[i]? = some false)
    (hz : ¬ s.refCount - 1 = 0) :
    releaseH s i =
      ({ s with handles := s.handles.set i true, refCount := s.refCount - 1,
                succReleases := s.succReleases + 1 }, RRes.ok) := by
  rw [releaseH, if_pos hg, if_neg hz]

theorem releaseH_dead (s : RcState) (i : Nat)
    (hg : ¬ s.handles[i]? = some false) :
    releaseH s i = (s, RRes.errReleased) := by
  rw [releaseH, if_neg hg]

theorem releaseH_zero_handles (s : RcState) (i : Nat)
    (hg : s.handles[i]? = some false) (hz : s.refCount - 1 = 0) :
    (releaseH s i).1.handles = s.handles.set i true := by
  rw [releaseH, if_pos hg, if_pos hz]
  unfold resourceClose
  cases hco : s.closerOk with
  | none => rfl
  | some ok => cases ok <;> rfl

theorem inv_init : Inv initState := by
  refine ⟨rfl, by decide, by decide, by decide, by decide, rfl, rfl⟩

theorem inv_step (s : RcState) (op : Op) (h : Inv s) : Inv (step s op).1 := by
  obtain ⟨hc, hlen, hrc, hcc, hcl, hsc, hsr⟩ := h
  have hle := countTrue_le s.handles
  cases op with
  | clone i =>
      show Inv (cloneH s i).1
      by_cases hg : s.handles[i]? = some false
      · have hlt := countTrue_lt_of_get_false hg
        rw [cloneH_live s i hg]
        unfold Inv
        dsimp only
        simp only [countTrue_append_false, List.length_append, List.length_cons,
          List.length_nil]
        refine ⟨hc, by omega, by push_cast; omega, ?_, ?_, by omega, hsr⟩
        · rw [hcc, if_neg (by omega), if_neg (by omega)]
        · constructor
          · intro hx
            exact absurd (hcl.mp hx) (by omega)
          · intro hx
            exact absurd hx (by omega)
      · rw [cloneH_dead s i hg]
        exact ⟨hc, hlen, hrc, hcc, hcl, hsc, hsr⟩
  | release i =>
      show Inv (releaseH s i).1
      by_cases hg : s.handles[i]? = some false
      · have hlt := countTrue_lt_of_get_false hg
        have hset := countTrue_set_true hg
        have hlen2 : (s.handles.set i true).length = s.handles.length :=
          List.length_set s.handles i true
        by_cases hz : s.refCount - 1 = 0
        · rw [releaseH_zero s i hg hz hc]
          unfold Inv
          dsimp only
          simp only [hset, hlen2]
          refine ⟨hc, by omega, by push_cast; omega, ?_, ?_, by omega, by omega⟩
          · rw [if_pos (by omega)]
            rw [hcc, if_neg (by omega)]
          · simp only [true_iff]
            omega
        · rw [releaseH_pos s i hg hz]
          unfold Inv
          dsimp only
          simp only [hset, hlen2]
          refine ⟨hc, by omega, by push_cast; omega, ?_, ?_, by omega, by omega⟩
          · rw [hcc, if_neg (by omega), if_neg (by omega)]
          · rw [hcl]
            constructor <;> intro hx <;> omega
      · rw [releaseH_dead s i hg]
        exact ⟨hc, hlen, hrc, hcc, hcl, hsc, hsr⟩

theorem inv_run (s : RcState) (t : List Op) (h : Inv s) : Inv (run s t) := by
  induction t generalizing s with
  | nil => exact h
  | cons op t ih => exact ih _ (inv_step s op h)

theorem inv_reach (t : List Op) : Inv (run initState t) :=
  inv_run initState t inv_init

theorem released_mono_step (s : RcState) (op : Op) {i : Nat}
    (h : s.handles[i]? = some true) :
    (step s op).1.handles[i]? = some true := by
  cases op with
  | clone j =>
      show (cloneH s j).1.handles[i]? = some true
      by_cases hg : s.handles[j]? = some false
      · rw [cloneH_live s j hg]
        exact get_true_append h
      · rw [cloneH_dead s j hg]
        exact h
  | release j =>
      show (releaseH s j).1.handles[i]? = some true
      by_cases hg : s.handles[j]? = some false
      · by_cases hz : s.refCount - 1 = 0
        · rw [releaseH_zero_handles s j hg hz]
          exact get_true_of_set h
        · rw [releaseH_pos s j hg hz]
          exact get_true_of_set h
      · rw [releaseH_dead s j hg]
        exact h

theorem released_mono_run (s : RcState) (t : List Op) {i : Nat}
    (h : s.handles[i]? = some true) :
    (run s t).handles[i]? = some true := by
  induction t generalizing s with
  | nil => exact h
  | cons op t ih => exact ih _ (released_mono_step s op h)

theorem releaseH_handles (s : RcState) (i : Nat)
    (h : s.handles[i]? = some false) :
    (releaseH s i).1.handles = s.handles.set i true := by
  by_cases hz : s.refCount - 1 = 0
  · exact releaseH_zero_handles s i h hz
  · rw [releaseH_pos s i h hz]

theorem closer_step (s : RcState) (op : Op) (h : Inv s)
    (hinc : s.closerCalls < (step s op).1.closerCalls) :
    opIsRelease (some op) = true ∧ (step s op).1.refCount = 0 ∧
      (step s op).2 = RRes.ok := by
  obtain ⟨hc, hlen, hrc, hcc, hcl, hsc, hsr⟩ := h
  cases op with
  | clone i =>
      exfalso
      revert hinc
      show ¬ s.closerCalls < (cloneH s i).1.closerCalls
      by_cases hg : s.handles[i]? = some false
      · rw [cloneH_live s i hg]
        simp
      · rw [cloneH_dead s i hg]
        simp
  | release i =>
      by_cases hg : s.handles[i]? = some false
      · by_cases hz : s.refCount - 1 = 0
        · refine ⟨rfl, ?_, ?_⟩ <;>
            rw [show step s (Op.release i) = releaseH s i from rfl,
              releaseH_zero s i hg hz hc]
          exact hz
        · exfalso
          revert hinc
          show ¬ s.closerCalls < (releaseH s i).1.closerCalls
          rw [releaseH_pos s i hg hz]
          simp
      · exfalso
        revert hinc
        show ¬ s.closerCalls < (releaseH s i).1.closerCalls
        rw [releaseH_dead s i hg]
        simp

theorem run_append (s : RcState) (t1 t2 : List Op) :
    run s (t1 ++ t2) = run (run s t1) t2 := by
  induction t1 generalizing s with
  | nil => rfl
  | cons op t ih => simp [run, ih]

theorem run_take_succ (t : List Op) (k : Nat) (op : Op)
    (hk : t[k]? = some op) (s : RcState) :
    run s (t.take (k + 1)) = (step (run s (t.take k)) op).1 := by
  rw [List.take_succ]
  simp only [List.get?_eq_getElem?, hk, Option.toList_some]
  rw [run_append]
  rfl

/-- Claim C1: for a resource block created by New with initial refCount 1 and
a (succeeding) closer, after any trace containing N successful clones and
N + 1 successful releases, the closer has been invoked exactly once, and the
step that invoked it is a release operation that succeeded and decremented
refCount to zero (the closer runs synchronously inside that release call). -/
theorem c1_closer_once_inside_final_release (t : List Op) (N : Nat)
    (hclones : (run initState t).succClones = N)
    (hreleases : (run initState t).succReleases = N + 1) :
    (run initState t).closerCalls = 1 ∧
    ∀ k, k < t.length →
      (run initState (t.take k)).closerCalls <
        (run initState (t.take (k + 1))).closerCalls →
      opIsRelease t[k]? = true ∧
      (run initState (t.take (k + 1))).refCount = 0 ∧
      resAt t k = some RRes.ok := by
  obtain ⟨_, hlen, _, hcc, _, hsc, hsr⟩ := inv_reach t
  constructor
  · rw [hcc, if_pos (by omega)]
  · intro k hk hinc
    obtain ⟨op, hop⟩ : ∃ op, t[k]? = some op :=
      ⟨t[k], List.getElem?_eq_getElem hk⟩
    rw [run_take_succ t k op hop initState] at hinc ⊢
    have hres := closer_step (run initState (t.take k)) op
      (inv_reach (t.take k)) hinc
    refine ⟨?_, hres.2.1, ?_⟩
    · rw [hop]
      exact hres.1
    · rw [resAt, hop]
      exact congrArg some hres.2.2

/-- Witness for C1: the trace clone, release, release from a fresh block has
one successful clone and two successful releases, and the conclusion holds. -/
theorem c1_closer_once_inside_final_release_witness :
    (run initState [Op.clone 0, Op.release 0, Op.release 1]).succClones = 1 ∧
    (run initState [Op.clone 0, Op.release 0, Op.release 1]).succReleases = 2 ∧
    ((run initState [Op.clone 0, Op.release 0, Op.release 1]).closerCalls = 1 ∧
     ∀ k, k < [Op.clone 0, Op.release 0, Op.release 1].length →
       (run initState ([Op.clone 0, Op.release 0, Op.release 1].take k)).closerCalls <
         (run initState ([Op.clone 0, Op.release 0, Op.release 1].take (k + 1))).closerCalls →
       opIsRelease [Op.clone 0, Op.release 0, Op.release 1][k]? = true ∧
       (run initState ([Op.clone 0, Op.release 0, Op.release 1].take (k + 1))).refCount = 0 ∧
       resAt [Op.clone 0, Op.release 0, Op.release 1] k = some RRes.ok) :=
  ⟨by decide, by decide,
    c1_closer_once_inside_final_release [Op.clone 0, Op.release 0, Op.release 1] 1
      (by decide) (by decide)⟩

/-- Claim C2: on any reachable state, the first release of a live handle
succeeds, and every subsequent release of that same handle (after any further
operations) returns ErrReleased and leaves the state, in particular the
block's refCount, unchanged. -/
theorem c2_release_exactly_once (t u : List Op) (i : Nat)
    (h : (run initState t).handles[i]? = some false) :
    (releaseH (run initState t) i).2 = RRes.ok ∧
    (releaseH (run (releaseH (run initState t) i).1 u) i).2 = RRes.errReleased ∧
    (releaseH (run (releaseH (run initState t) i).1 u) i).1 =
      run (releaseH (run initState t) i).1 u := by
  obtain ⟨hc, _, _, _, _, _, _⟩ := inv_reach t
  have hfst : (releaseH (run initState t) i).2 = RRes.ok := by
    by_cases hz : (run initState t).refCount - 1 = 0
    · rw [releaseH_zero (run initState t) i h hz hc]
    · rw [releaseH_pos (run initState t) i h hz]
  have hrel : (releaseH (run initState t) i).1.handles[i]? = some true := by
    rw [releaseH_handles (run initState t) i h]
    exact get_set_true_self h
  have hrel2 : (run (releaseH (run initState t) i).1 u).handles[i]? = some true :=
    released_mono_run _ u hrel
  have hne : ¬ (run (releaseH (run initState t) i).1 u).handles[i]? = some false := by
    rw [hrel2]
    simp
  exact ⟨hfst, by rw [releaseH_dead _ i hne], by rw [releaseH_dead _ i hne]⟩

/-- Witness for C2: releasing the sole handle of a fresh block succeeds, and
an immediate second release returns ErrReleased without touching the state. -/
theorem c2_release_exactly_once_witness :
    (run initState []).handles[0]? = some false ∧
    ((releaseH (run initState []) 0).2 = RRes.ok ∧
     (releaseH (run (releaseH (run initState []) 0).1 []) 0).2 = RRes.errReleased ∧
     (releaseH (run (releaseH (run initState []) 0).1 []) 0).1 =
       run (releaseH (run initState []) 0).1 []) :=
  ⟨by decide, c2_release_exactly_once [] [] 0 (by decide)⟩

/-- Claim C7: on any reachable state whose block has been closed (the closer
ran successfully), cloning from any handle of the block fails with
ErrReleased and produces no new handle: the state is unchanged. -/
theorem c7_no_clone_after_closed (t : List Op) (i : Nat)
    (hclosed : (run initState t).closed = true)
    (hi : i < (run initState t).handles.length) :
    (cloneH (run initState t) i).2 = RRes.errReleased ∧
    (cloneH (run initState t) i).1 = run initState t := by
  obtain ⟨_, _, _, _, hcl, _, _⟩ := inv_reach t
  have hall := all_true_of_count (hcl.mp hclosed) hi
  have hne : ¬ (run initState t).handles[i]? = some false := by
    rw [hall]
    simp
  exact ⟨by rw [cloneH_dead _ i hne], by rw [cloneH_dead _ i hne]⟩

/-- Witness for C7: after releasing the sole handle the block is closed, and
a clone attempt on that handle fails without changing the state. -/
theorem c7_no_clone_after_closed_witness :
    (run initState [Op.release 0]).closed = true ∧
    0 < (run initState [Op.release 0]).handles.length ∧
    ((cloneH (run initState [Op.release 0]) 0).2 = RRes.errReleased ∧
     (cloneH (run initState [Op.release 0]) 0).1 = run initState [Op.release 0]) :=
  ⟨by decide, by decide,
    c7_no_clone_after_closed [Op.release 0] 0 (by decide) (by decide)⟩

end RcModel

namespace OFileModel

/-- What the entry's path currently resolves to on the filesystem, as seen by
objectFile.reopen: whether os.Open, elf.NewFile and Stat succeed, and the
stat size and modtime. -/
structure FsFile where
  openOK : Bool
  elfOK : Bool
  statOK : Bool
  size : Int
  modtime : Int
  deriving DecidableEq, Repr

/-- The Info record of an object file (objectfile.Info): build id, path, size,
modtime, and whether a DebugFile reference is attached. -/
structure OInfo where
  buildID : String
  path : String
  size : Int
  modtime : Int
  hasDebugFile : Bool
  deriving DecidableEq, Repr

/-- State of one objectFile entry: its Info, whether the file field is non-nil
(hasFile), whether the OS descriptor is actually open (fileOpen), the
descriptor cursor, whether the parsed ELF view exists, the closed flag, the
closedBy diagnostic, and whether the entry mutex is currently held. -/
structure OFState where
  i : OInfo
  hasFile : Bool
  fileOpen : Bool
  cursor : Int
  hasElf : Bool
  closed : Bool
  closedBySet : Bool
  mtxHeld : Bool
  deriving DecidableEq, Repr

/-- objectFile.reopen: opens Info.Path, re-parses the ELF, restats, and on
success installs the fresh descriptor and updates Info.Size and Info.Modtime.
Note that it does not touch the closed flag. -/
def reopen (o : OFState) (fsf : FsFile) : OFState × Bool :=
  if ¬ fsf.openOK then (o, false)
  else if ¬ fsf.elfOK then (o, false)
  else if ¬ fsf.statOK then (o, false)
  else
    ({ o with hasFile := true, fileOpen := true, cursor := 0, hasElf := true,
              i := { o.i with size := fsf.size, modtime := fsf.modtime } },
     true)

/-- Outcome of a close of the entry. -/
inductive CloseRes where
  | ok
  | errAlreadyClosed
  | errCloseFailed
  deriving DecidableEq, Repr

/-- objectFile._close: fails with ErrAlreadyClosed when the closed flag is
set; otherwise closes the descriptor when the file field is non-nil (an error
from the OS close is reported when the descriptor was not open), sets closed
and closedBy, and releases an attached DebugFile reference. -/
def lowClose (o : OFState) : OFState × CloseRes :=
  if o.closed then (o, CloseRes.errAlreadyClosed)
  else if o.hasFile then
    ({ o with fileOpen := false, closed := true, closedBySet := true,
              i := { o.i with hasDebugFile := false } },
     if o.fileOpen then CloseRes.ok else CloseRes.errCloseFailed)
  else
    ({ o with i := { o.i with hasDebugFile := false } }, CloseRes.ok)

/-- objectFile.close: the destructor used as the Reference closer. A nil
entry returns nil and performs no action; otherwise it takes the mutex and
delegates to _close. -/
def closeEntry : Option OFState → Option OFState × CloseRes
  | none => (none, CloseRes.ok)
  | some o =>
      (some { (lowClose { o with mtxHeld := true }).1 with mtxHeld := false },
       (lowClose { o with mtxHeld := true }).2)

/-- Result of a Reader acquisition. -/
inductive RdrRes where
  | okReader (reOpened : Bool)
  | errNotInit
  | errReopen
  | errSeek
  deriving DecidableEq, Repr

/-- The tail of objectFile.Reader after the reopen-if-closed step: rewind the
descriptor; on success hand out the reader, otherwise the failure is a
closed-descriptor seek error, a reopen is attempted, and the error is
returned regardless. -/
def readerRewind (o : OFState) (reOpened : Bool) (fsf : FsFile) :
    OFState × RdrRes :=
  if o.fileOpen then ({ o with cursor := 0 }, RdrRes.okReader reOpened)
  else ((reopen o fsf).1, RdrRes.errSeek)

/-- objectFile.Reader: fails with ErrNotInitialized when the file field is
nil (before taking the mutex); otherwise takes the mutex, transparently
reopens when the closed flag is set (a reopen failure is returned with the
mutex still held), rewinds, and returns the reader together with the
reOpened flag consumed by the done closure. -/
def readerAcq (o : OFState) (fsf : FsFile) : OFState × RdrRes :=
  if ¬ o.hasFile then (o, RdrRes.errNotInit)
  else if o.closed then
    (if (reopen { o with mtxHeld := true } fsf).2 then
       readerRewind (reopen { o with mtxHeld := true } fsf).1 true fsf
     else ((reopen { o with mtxHeld := true } fsf).1, RdrRes.errReopen))
  else readerRewind { o with mtxHeld := true } false fsf

/-- What the done closure of Reader returned: whether its rewind succeeded,
and the result of the _close it performs when the acquisition reopened the
file (`none` when no close was attempted). -/
structure DoneOut where
  rewindOK : Bool
  closeRes : Option CloseRes
  deriving DecidableEq, Repr

/-- The done closure returned by objectFile.Reader: rewinds the descriptor,
then, when the acquisition reopened the file, calls _close to keep the entry
logically closed, and finally releases the mutex. -/
def doneRun (o : OFState) (reOpened : Bool) : OFState × DoneOut :=
  if o.fileOpen then
    if reOpened then
      ({ (lowClose { o with cursor := 0 }).1 with mtxHeld := false },
       ⟨true, some (lowClose { o with cursor := 0 }).2⟩)
    else ({ o with cursor := 0, mtxHeld := false }, ⟨true, none⟩)
  else
    if reOpened then
      ({ (lowClose o).1 with mtxHeld := false }, ⟨false, some (lowClose o).2⟩)
    else ({ o with mtxHeld := false }, ⟨false, none⟩)

/-- Result of an ELF view acquisition. -/
inductive ElfRes where
  | okElf
  | errNotInit
  | errReopen
  | errClose
  deriving DecidableEq, Repr

/-- objectFile.ELF: fails when the elf view is nil; when the entry is closed
it takes the mutex, transiently reopens, re-closes on exit and releases the
mutex; otherwise it returns the parsed view directly. -/
def elfAcq (o : OFState) (fsf : FsFile) : OFState × ElfRes :=
  if ¬ o.hasElf then (o, ElfRes.errNotInit)
  else if o.closed then
    (if (reopen { o with mtxHeld := true } fsf).2 then
       ({ (lowClose (reopen { o with mtxHeld := true } fsf).1).1 with
            mtxHeld := false },
        if (lowClose (reopen { o with mtxHeld := true } fsf).1).2 = CloseRes.ok
        then ElfRes.okElf else ElfRes.errClose)
     else ({ (reopen { o with mtxHeld := true } fsf).1 with mtxHeld := false },
           ElfRes.errReopen))
  else (o, ElfRes.okElf)

/-- A logically closed entry (closed flag set, descriptor closed, stale file
field still non-nil) with cursor away from zero, used to exercise the
reopen-then-done path of Reader. -/
def c3Entry : OFState :=
  { i := { buildID := "bid3", path := "p3", size := 10, modtime := 1,
           hasDebugFile := false },
    hasFile := true, fileOpen := false, cursor := 4, hasElf := true,
    closed := true, closedBySet := true, mtxHeld := false }

/-- A filesystem on which reopening that entry succeeds with unchanged
metadata. -/
def c3Fs : FsFile :=
  { openOK := true, elfOK := true, statOK := true, size := 10, modtime := 1 }

/-- A logically closed entry whose path can no longer be opened. -/
def c4Entry : OFState :=
  { i := { buildID := "bid4", path := "p4", size := 10, modtime := 1,
           hasDebugFile := false },
    hasFile := true, fileOpen := false, cursor := 0, hasElf := true,
    closed := true, closedBySet := true, mtxHeld := false }

/-- A filesystem on which os.Open fails for that path. -/
def c4Fs : FsFile :=
  { openOK := false, elfOK := true, statOK := true, size := 0, modtime := 0 }

/-- A logically closed entry recorded with size 100, while the file on disk
now has size 200. -/
def c9Entry : OFState :=
  { i := { buildID := "bid9", path := "p9", size := 100, modtime := 1,
           hasDebugFile := false },
    hasFile := true, fileOpen := false, cursor := 0, hasElf := true,
    closed := true, closedBySet := true, mtxHeld := false }

/-- The filesystem now reports size 200 and modtime 9 for that path. -/
def c9Fs : FsFile :=
  { openOK := true, elfOK := true, statOK := true, size := 200, modtime := 9 }

theorem reopen_buildID (o : OFState) (fsf : FsFile) :
    (reopen o fsf).1.i.buildID = o.i.buildID := by
  unfold reopen
  split_ifs <;> rfl

theorem reopen_path (o : OFState) (fsf : FsFile) :
    (reopen o fsf).1.i.path = o.i.path := by
  unfold reopen
  split_ifs <;> rfl

theorem lowClose_buildID (o : OFState) :
    (lowClose o).1.i.buildID = o.i.buildID := by
  unfold lowClose
  split_ifs <;> rfl

theorem lowClose_path (o : OFState) :
    (lowClose o).1.i.path = o.i.path := by
  unfold lowClose
  split_ifs <;> rfl

/-- Claim C3 (refuted by the code, which contradicts its own comment "we
should keep it closed"): acquiring a reader on a closed entry does reopen it
and the done closure does rewind the cursor, but because reopen leaves the
closed flag set, the done closure's _close call returns ErrAlreadyClosed and
the reopened descriptor is left open rather than closed again. -/
theorem c3_done_does_not_reclose_reopened_file :
    (readerAcq c3Entry c3Fs).2 = RdrRes.okReader true ∧
    (doneRun (readerAcq c3Entry c3Fs).1 true).1.cursor = 0 ∧
    (doneRun (readerAcq c3Entry c3Fs).1 true).1.closed = true ∧
    (doneRun (readerAcq c3Entry c3Fs).1 true).1.fileOpen = true ∧
    (doneRun (readerAcq c3Entry c3Fs).1 true).2.closeRes =
      some CloseRes.errAlreadyClosed := by
  decide

/-- Claim C4 (refuted by the code): when the entry is closed and the reopen
attempt fails, Reader propagates the error while the entry mutex, which was
free before the call, is left held. -/
theorem c4_mutex_left_held_on_reopen_failure :
    c4Entry.mtxHeld = false ∧
    (readerAcq c4Entry c4Fs).2 = RdrRes.errReopen ∧
    (readerAcq c4Entry c4Fs).1.mtxHeld = true := by
  decide

/-- Counterexample to claim C9: acquiring a reader on a closed entry restats
the file and overwrites Info.Size (100 becomes 200), so the Info record is
not immutable under reader acquisition. -/
theorem c9_size_mutated_by_reader_acquisition :
    (readerAcq c9Entry c9Fs).1.i.size = 200 ∧
    c9Entry.i.size = 100 ∧
    ¬ (readerAcq c9Entry c9Fs).1.i.size = c9Entry.i.size := by
  decide

/-- Claim C9 as amended: the buildID and path fields of Info are immutable
under every entry operation (reader acquisition, the done closure, elf
access, and close); size and modtime may be rewritten by the restat a
transparent reopen performs. -/
theorem c9_buildid_path_immutable (o : OFState) (fsf : FsFile) (b : Bool) :
    ((readerAcq o fsf).1.i.buildID = o.i.buildID ∧
     (readerAcq o fsf).1.i.path = o.i.path) ∧
    ((doneRun o b).1.i.buildID = o.i.buildID ∧
     (doneRun o b).1.i.path = o.i.path) ∧
    ((elfAcq o fsf).1.i.buildID = o.i.buildID ∧
     (elfAcq o fsf).1.i.path = o.i.path) ∧
    ((closeEntry (some o)).1.map (fun x => x.i.buildID) = some o.i.buildID ∧
     (closeEntry (some o)).1.map (fun x => x.i.path) = some o.i.path) := by
  refine ⟨?_, ?_, ?_, ?_⟩
  · unfold readerAcq readerRewind
    split_ifs <;> simp [reopen_buildID, reopen_path]
  · unfold doneRun
    split_ifs <;> simp [lowClose_buildID, lowClose_path]
  · unfold elfAcq
    split_ifs <;>
      simp [reopen_buildID, reopen_path, lowClose_buildID, lowClose_path]
  · unfold closeEntry
    simp [lowClose_buildID, lowClose_path]

/-- Claim C10: the entry destructor close() called on a nil entry returns a
nil error and performs no action. -/
theorem c10_close_nil_entry :
    closeEntry none = (none, CloseRes.ok) := rfl

end OFileModel

namespace PoolModel

/-- The immutable part of an objectFile entry as the pool sees it (the Info
constructed by Pool.NewFile). -/
structure PEntry where
  buildID : String
  path : String
  size : Int
  modtime : Int
  deriving DecidableEq, Repr

/-- A resource block owned by the pool: the rc refCount, whether the entry
destructor has run (the entry is closed), and the entry itself. -/
structure PBlock where
  refCount : Int
  closed : Bool
  entry : PEntry
  deriving DecidableEq, Repr

/-- A Reference handle into some block, with its released flag. -/
structure PHandle where
  blockId : Nat
  released : Bool
  deriving DecidableEq, Repr

/-- The pool: all blocks and handles ever created, and the cache mapping a
build id to the pool-owned handle for its entry. -/
structure PoolState where
  blocks : List PBlock
  handles : List PHandle
  cache : List (String × Nat)
  deriving DecidableEq, Repr

/-- An os.File argument of Pool.NewFile, described by what the pool's checks
observe on it: whether reading the magic succeeds, whether the four magic
bytes match ELFMAG, whether elf.NewFile succeeds, the section count, the
result of buildid.BuildID, and whether rewind, Stat and Close succeed. -/
structure GoFile where
  path : String
  readOK : Bool
  magicOK : Bool
  elfOK : Bool
  nSections : Nat
  buildIDRes : Option String
  rewindOK : Bool
  statOK : Bool
  size : Int
  modtime : Int
  closeOK : Bool
  deriving DecidableEq, Repr

/-- Error kinds surfaced by the pool. -/
inductive PErr where
  | readMagic
  | unrecognized
  | elfParse
  | noSections
  | rewindFail
  | statFail
  | closeFail
  | released
  | internal
  deriving DecidableEq, Repr

/-- Result of Pool.NewFile: a reference handle, an error, or a panic (from
MustClone on a released cached reference). -/
inductive NFRes where
  | okRef (hid : Nat)
  | err (e : PErr)
  | panicked (e : PErr)
  deriving DecidableEq, Repr

/-- buildid.BuildID result folded as NewFile does: on error the build id
stays the empty string. -/
def buildIDOf (f : GoFile) : String :=
  f.buildIDRes.getD ""

/-- Association-list lookup, modelling cache.GetIfPresent. -/
def lookupC : List (String × Nat) → String → Option Nat
  | [], _ => none
  | (k, v) :: t, key => if k = key then some v else lookupC t key

/-- Increment the refCount of block `b` (Reference.Clone on a live cached
handle). -/
def bumpBlock (bs : List PBlock) (b : Nat) : List PBlock :=
  match bs[b]? with
  | some blk => bs.set b { blk with refCount := blk.refCount + 1 }
  | none => bs

/-- Pool.NewFile: validate the ELF magic, parse, require sections, compute
the build id, rewind; on a cache hit close the duplicate descriptor and
MustClone the cached reference (panicking when it was already released,
inserting nothing); on a miss stat the file, build the entry, put one
reference in the cache and return a clone, so the block starts with
refCount 2.  The final Bool records whether the supplied descriptor was
closed before returning. -/
def newFile (s : PoolState) (f : GoFile) : PoolState × NFRes × Bool :=
  if f.readOK = false then (s, NFRes.err PErr.readMagic, true)
  else if f.magicOK = false then (s, NFRes.err PErr.unrecognized, true)
  else if f.elfOK = false then (s, NFRes.err PErr.elfParse, true)
  else if f.nSections = 0 then (s, NFRes.err PErr.noSections, true)
  else if f.rewindOK = false then (s, NFRes.err PErr.rewindFail, true)
  else
    match lookupC s.cache (buildIDOf f) with
    | some hid =>
        if f.closeOK = false then (s, NFRes.err PErr.closeFail, true)
        else
          match s.handles[hid]? with
          | none => (s, NFRes.err PErr.internal, true)
          | some h =>
              if h.released then (s, NFRes.panicked PErr.released, true)
              else
                ({ s with blocks := bumpBlock s.blocks h.blockId,
                          handles := s.handles ++ [⟨h.blockId, false⟩] },
                 NFRes.okRef s.handles.length, true)
    | none =>
        if f.statOK = false then (s, NFRes.err PErr.statFail, false)
        else
          ({ s with
               blocks := s.blocks ++
                 [⟨2, false, ⟨buildIDOf f, f.path, f.size, f.modtime⟩⟩],
               handles := s.handles ++
                 [⟨s.blocks.length, false⟩, ⟨s.blocks.length, false⟩],
               cache := (buildIDOf f, s.handles.length) :: s.cache },
           NFRes.okRef (s.handles.length + 1), false)

/-- Result of releasing a pool-level reference handle. -/
inductive PRRes where
  | ok
  | errReleased
  | errCloser
  deriving DecidableEq, Repr

/-- Reference.Release specialised to pool handles, with objectFile.close as
the closer: the final release runs the entry destructor, which errors when
the entry was already closed and otherwise marks the block closed. -/
def releaseP (s : PoolState) (hid : Nat) : PoolState × PRRes :=
  match s.handles[hid]? with
  | none => (s, PRRes.errReleased)
  | some h =>
      if h.released then (s, PRRes.errReleased)
      else
        match s.blocks[h.blockId]? with
        | none => (s, PRRes.errReleased)
        | some blk =>
            if blk.refCount - 1 = 0 then
              if blk.closed then
                ({ s with
                     handles := s.handles.set hid { h with released := true },
                     blocks := s.blocks.set h.blockId
                       { blk with refCount := blk.refCount - 1 } },
                 PRRes.errCloser)
              else
                ({ s with
                     handles := s.handles.set hid { h with released := true },
                     blocks := s.blocks.set h.blockId
                       { blk with refCount := blk.refCount - 1,
                                  closed := true } },
                 PRRes.ok)
            else
              ({ s with
                   handles := s.handles.set hid { h with released := true },
                   blocks := s.blocks.set h.blockId
                     { blk with refCount := blk.refCount - 1 } },
               PRRes.ok)

/-- Outcome of the cache removal callback. -/
inductive CbOut where
  | ok
  | panicked
  deriving DecidableEq, Repr

/-- Remove a key from the cache map. -/
def removeKey : List (String × Nat) → String → List (String × Nat)
  | [], _ => []
  | (k, v) :: t, key =>
      if k = key then removeKey t key else (k, v) :: removeKey t key

/-- onRemoval: releases the pool's reference for the removed entry; when the
release returns an error it logs it and then panics. -/
def onRemovalRun (s : PoolState) (hid : Nat) : PoolState × CbOut :=
  if (releaseP s hid).2 = PRRes.ok then ((releaseP s hid).1, CbOut.ok)
  else ((releaseP s hid).1, CbOut.panicked)

/-- Eviction of a key: the entry is removed from the cache map and the
removal callback runs on the pool's reference. -/
def evictP (s : PoolState) (key : String) : PoolState × CbOut :=
  match lookupC s.cache key with
  | none => (s, CbOut.ok)
  | some hid => onRemovalRun { s with cache := removeKey s.cache key } hid

/-- A pool whose single cached entry's pool reference has already been
released (for example by the fail-safe finalizer). -/
def c5State : PoolState :=
  { blocks := [⟨0, true, ⟨"bid5", "p5", 1, 1⟩⟩],
    handles := [⟨0, true⟩],
    cache := [("bid5", 0)] }

/-- Claim C5 (refuted by the code): when the release performed by the cache
removal callback returns an error, the callback panics after logging instead
of swallowing the error, aborting the removal processing. -/
theorem c5_removal_callback_panics_on_release_error :
    (releaseP c5State 0).2 = PRRes.errReleased ∧
    (onRemovalRun c5State 0).2 = CbOut.panicked ∧
    (evictP c5State "bid5").2 = CbOut.panicked := by
  decide

theorem get_append_length {α : Type} (l : List α) (a : α) :
    (l ++ [a])[l.length]? = some a := by
  induction l with
  | nil => rfl
  | cons x t ih =>
      simp only [List.cons_append, List.length_cons, List.getElem?_cons_succ]
      exact ih

/-- Claim C6: when NewFile is called with a descriptor whose build id is
already a cache key, the supplied descriptor is closed before returning, no
new cache entry is inserted, and either the cached reference was already
released and the call fails fast (MustClone panics with ErrReleased, leaving
the pool untouched) or a fresh clone of the cached reference is returned,
sharing the cached entry's block. -/
theorem c6_newfile_dedup_by_buildid (s : PoolState) (f : GoFile) (hid : Nat)
    (h : PHandle)
    (h1 : f.readOK = true) (h2 : f.magicOK = true) (h3 : f.elfOK = true)
    (h4 : f.nSections ≠ 0) (h5 : f.rewindOK = true) (h6 : f.closeOK = true)
    (h7 : lookupC s.cache (buildIDOf f) = some hid)
    (h8 : s.handles[hid]? = some h) :
    (newFile s f).2.2 = true ∧
    (newFile s f).1.cache = s.cache ∧
    (h.released = true →
      (newFile s f).2.1 = NFRes.panicked PErr.released ∧
      (newFile s f).1 = s) ∧
    (h.released = false →
      (newFile s f).2.1 = NFRes.okRef s.handles.length ∧
      (newFile s f).1.handles[s.handles.length]? =
        some ⟨h.blockId, false⟩) := by
  cases hr : h.released with
  | true =>
      refine ⟨?_, ?_, fun _ => ⟨?_, ?_⟩, fun hc => ?_⟩
      · simp [newFile, h1, h2, h3, h4, h5, h6, h7, h8, hr]
      · simp [newFile, h1, h2, h3, h4, h5, h6, h7, h8, hr]
      · simp [newFile, h1, h2, h3, h4, h5, h6, h7, h8, hr]
      · simp [newFile, h1, h2, h3, h4, h5, h6, h7, h8, hr]
      · exact absurd hc (by decide)
  | false =>
      refine ⟨?_, ?_, fun hc => ?_, fun _ => ⟨?_, ?_⟩⟩
      · simp [newFile, h1, h2, h3, h4, h5, h6, h7, h8, hr]
      · simp [newFile, h1, h2, h3, h4, h5, h6, h7, h8, hr]
      · exact absurd hc (by decide)
      · simp [newFile, h1, h2, h3, h4, h5, h6, h7, h8, hr]
      · simp [newFile, h1, h2, h3, h4, h5, h6, h7, h8, hr,
          get_append_length]

/-- A pool with one cached entry whose pool reference is live, and a fresh
descriptor for a byte-identical file. -/
def c6State : PoolState :=
  { blocks := [⟨1, false, ⟨"bid6", "p6", 5, 5⟩⟩],
    handles := [⟨0, false⟩],
    cache := [("bid6", 0)] }

/-- A duplicate descriptor carrying the already cached build id. -/
def c6File : GoFile :=
  { path := "dup", readOK := true, magicOK := true, elfOK := true,
    nSections := 2, buildIDRes := some "bid6", rewindOK := true,
    statOK := true, size := 5, modtime := 5, closeOK := true }

/-- Witness for C6: on a concrete pool the duplicate descriptor is closed,
the cache is unchanged, and a clone of the cached reference (block 0) is
returned. -/
theorem c6_newfile_dedup_by_buildid_witness :
    lookupC c6State.cache (buildIDOf c6File) = some 0 ∧
    c6State.handles[0]? = some ⟨0, false⟩ ∧
    ((newFile c6State c6File).2.2 = true ∧
     (newFile c6State c6File).1.cache = c6State.cache ∧
     ((⟨0, false⟩ : PHandle).released = true →
       (newFile c6State c6File).2.1 = NFRes.panicked PErr.released ∧
       (newFile c6State c6File).1 = c6State) ∧
     ((⟨0, false⟩ : PHandle).released = false →
       (newFile c6State c6File).2.1 = NFRes.okRef c6State.handles.length ∧
       (newFile c6State c6File).1.handles[c6State.handles.length]? =
         some ⟨0, false⟩)) :=
  ⟨by decide, by decide,
    c6_newfile_dedup_by_buildid c6State c6File 0 ⟨0, false⟩ rfl rfl rfl
      (by decide) rfl rfl (by decide) (by decide)⟩

/-- The entry reached through handle `hid`. -/
def entryOfHandle (s : PoolState) (hid : Nat) : Option PEntry :=
  match s.handles[hid]? with
  | some h => (s.blocks[h.blockId]?).map PBlock.entry
  | none => none

/-- The block a handle points at. -/
def blockOfHandle (s : PoolState) (hid : Nat) : Option Nat :=
  (s.handles[hid]?).map PHandle.blockId

/-- The Info path reached through a handle. -/
def pathOfHandle (s : PoolState) (hid : Nat) : Option String :=
  (entryOfHandle s hid).map PEntry.path

/-- A byte-identical ELF copy at path copyA. -/
def copyA : GoFile :=
  { path := "copyA", readOK := true, magicOK := true, elfOK := true,
    nSections := 3, buildIDRes := some "bid8", rewindOK := true,
    statOK := true, size := 100, modtime := 7, closeOK := true }

/-- The same bytes at a different path copyB (same build id). -/
def copyB : GoFile :=
  { copyA with path := "copyB" }

/-- The empty pool. -/
def pool0 : PoolState :=
  { blocks := [], handles := [], cache := [] }

/-- The pool after opening copyA. -/
def pool1 : PoolState :=
  (newFile pool0 copyA).1

/-- The pool after opening copyA and then copyB. -/
def pool2 : PoolState :=
  (newFile pool1 copyB).1

/-- Counterexample to claim C8: opening two byte-identical copies returns
references a (handle 1) and b (handle 2) that share the single cached entry,
so a.info().path and b.info().path are both the first-opened path copyA and
are not different, contradicting the claimed inequality. -/
theorem c8_info_paths_are_equal :
    (newFile pool0 copyA).2.1 = NFRes.okRef 1 ∧
    (newFile pool1 copyB).2.1 = NFRes.okRef 2 ∧
    pathOfHandle pool2 1 = some "copyA" ∧
    pathOfHandle pool2 2 = some "copyA" ∧
    ¬ pathOfHandle pool2 1 ≠ pathOfHandle pool2 2 := by
  decide

/-- Claim C8 as amended: after opening two byte-identical copies the pool's
map holds exactly one key for the shared build id, both returned references
point at the same block (the same cached entry) and therefore report the
same info().path, and releasing both references followed by eviction of the
key leaves zero pool entries, with the entry destructor having run. -/
theorem c8_dedup_single_key_shared_entry :
    pool2.cache.length = 1 ∧
    lookupC pool2.cache "bid8" = some 0 ∧
    blockOfHandle pool2 1 = blockOfHandle pool2 2 ∧
    pathOfHandle pool2 1 = pathOfHandle pool2 2 ∧
    (releaseP pool2 1).2 = PRRes.ok ∧
    (releaseP (releaseP pool2 1).1 2).2 = PRRes.ok ∧
    (evictP (releaseP (releaseP pool2 1).1 2).1 "bid8").2 = CbOut.ok ∧
    (evictP (releaseP (releaseP pool2 1).1 2).1 "bid8").1.cache = [] ∧
    ((evictP (releaseP (releaseP pool2 1).1 2).1 "bid8").1.blocks[0]?).map
      PBlock.closed = some true := by
  decide

end PoolModel
